import Mathlib

/-!
Verification of the RetroVisionAI AI-call pipeline: the multi-provider
fallback orchestrator, the JSON response coercion, the in-memory TTL
cache, the request validation/moderation layer and the per-IP rate
limiter, shallowly embedded from the repository's JavaScript/TypeScript
sources (`server/routes/openai.js`, `server/utils/{cache,prompts}.js`,
the OpenAI client utilities, and the supabase edge functions
`deconstruct`, `narrative`, `simulate`, `generate-image`).
-/

namespace RetroVision

/-! ## JSON values

Model of the JavaScript JSON values produced by `JSON.parse`.  Numbers
are kept exactly as `mantissa * 10 ^ exp10` (the claims under study never
depend on float rounding). -/

inductive JVal where
  | jnull : JVal
  | jbool : Bool → JVal
  | jnum : Int → Int → JVal
  | jstr : String → JVal
  | jarr : List JVal → JVal
  | jobj : List (String × JVal) → JVal
deriving Repr

open JVal

/-! ## A total model of `JSON.parse`

Recursive-descent JSON reader over `List Char`, total thanks to a fuel
argument (the fuel `2 * length + 4` dominates the number of recursive
calls, each of which consumes input).  It covers the RFC 8259 grammar
except `\uXXXX` string escapes, which none of the concrete inputs in
this development use. -/

def isJsonWs (c : Char) : Bool :=
  c == ' ' || c == '\n' || c == '\t' || c == '\r'

def skipWsChars (cs : List Char) : List Char :=
  cs.dropWhile isJsonWs

def escChar : Char → Option Char
  | 'n' => some '\n'
  | 't' => some '\t'
  | 'r' => some '\r'
  | 'b' => some (Char.ofNat 8)
  | 'f' => some (Char.ofNat 12)
  | '/' => some '/'
  | '\\' => some '\\'
  | '"' => some '"'
  | _ => none

def strBody : List Char → Option (List Char × List Char)
  | [] => none
  | '"' :: rest => some ([], rest)
  | '\\' :: e :: rest =>
    match escChar e with
    | some c => (strBody rest).map (fun p => (c :: p.1, p.2))
    | none => none
  | c :: rest => (strBody rest).map (fun p => (c :: p.1, p.2))

def isDig (c : Char) : Bool := '0' ≤ c && c ≤ '9'

def natOfDigits (ds : List Char) : Nat :=
  ds.foldl (fun a c => a * 10 + (c.toNat - 48)) 0

/-- Read a JSON number token (sign, integer part without spurious leading
zero, optional fraction, optional exponent), as `JSON.parse` accepts. -/
def parseNum (cs : List Char) : Option (JVal × List Char) :=
  let signSplit : Bool × List Char :=
    match cs with
    | '-' :: r => (true, r)
    | other => (false, other)
  let neg := signSplit.1
  let cs1 := signSplit.2
  let ds := cs1.takeWhile isDig
  let cs2 := cs1.dropWhile isDig
  if ds.isEmpty then none
  else if 1 < ds.length && ds.headD '0' == '0' then none
  else
    let fr : Option (List Char × List Char) := match cs2 with
      | '.' :: r => some (r.takeWhile isDig, r.dropWhile isDig)
      | _ => none
    match fr with
    | some (fds, cs3) =>
      if fds.isEmpty then none
      else parseExpPart neg (ds ++ fds) (-(fds.length : Int)) cs3
    | none => parseExpPart neg ds 0 cs2
where
  parseExpPart (neg : Bool) (mds : List Char) (e0 : Int) (cs : List Char) :
      Option (JVal × List Char) :=
    let mant : Int := if neg then -(natOfDigits mds : Int) else (natOfDigits mds : Int)
    match cs with
    | 'e' :: r => parseExpDigits mant e0 r
    | 'E' :: r => parseExpDigits mant e0 r
    | _ => some (jnum mant e0, cs)
  parseExpDigits (mant : Int) (e0 : Int) (cs : List Char) :
      Option (JVal × List Char) :=
    let (eneg, cs1) := match cs with
      | '-' :: r => (true, r)
      | '+' :: r => (false, r)
      | _ => (false, cs)
    let eds := cs1.takeWhile isDig
    if eds.isEmpty then none
    else
      let e : Int := if eneg then -(natOfDigits eds : Int) else (natOfDigits eds : Int)
      some (jnum mant (e0 + e), cs1.dropWhile isDig)

mutual

def parseVal : Nat → List Char → Option (JVal × List Char)
  | 0, _ => none
  | fuel + 1, cs =>
    match skipWsChars cs with
    | 'n' :: 'u' :: 'l' :: 'l' :: r => some (jnull, r)
    | 't' :: 'r' :: 'u' :: 'e' :: r => some (jbool true, r)
    | 'f' :: 'a' :: 'l' :: 's' :: 'e' :: r => some (jbool false, r)
    | '"' :: r => (strBody r).map (fun p => (jstr (String.mk p.1), p.2))
    | '[' :: r =>
      (match skipWsChars r with
       | ']' :: r1 => some (jarr [], r1)
       | r1 => (parseArrItems fuel r1).map (fun p => (jarr p.1, p.2)))
    | '{' :: r =>
      (match skipWsChars r with
       | '}' :: r1 => some (jobj [], r1)
       | r1 => (parseObjItems fuel r1).map (fun p => (jobj p.1, p.2)))
    | c :: r => if c == '-' || isDig c then parseNum (c :: r) else none
    | [] => none

def parseArrItems : Nat → List Char → Option (List JVal × List Char)
  | 0, _ => none
  | fuel + 1, cs =>
    match parseVal fuel cs with
    | none => none
    | some (v, r) =>
      match skipWsChars r with
      | ',' :: r1 => (parseArrItems fuel r1).map (fun p => (v :: p.1, p.2))
      | ']' :: r1 => some ([v], r1)
      | _ => none

def parseObjItems : Nat → List Char → Option (List (String × JVal) × List Char)
  | 0, _ => none
  | fuel + 1, cs =>
    match skipWsChars cs with
    | '"' :: r =>
      (match strBody r with
       | none => none
       | some (key, r1) =>
         match skipWsChars r1 with
         | ':' :: r2 =>
           (match parseVal fuel r2 with
            | none => none
            | some (v, r3) =>
              match skipWsChars r3 with
              | ',' :: r4 =>
                (parseObjItems fuel r4).map
                  (fun p => ((String.mk key, v) :: p.1, p.2))
              | '}' :: r4 => some ([(String.mk key, v)], r4)
              | _ => none)
         | _ => none)
    | _ => none

end

/-- `JSON.parse` on a whole string: one value, then only whitespace. -/
def parseJsonChars (cs : List Char) : Option JVal :=
  match parseVal (2 * cs.length + 4) cs with
  | some (v, rest) => if (skipWsChars rest).isEmpty then some v else none
  | none => none

def parseJsonStr (s : String) : Option JVal :=
  parseJsonChars s.toList

/-! ## The coercion's JSON-extraction step

The supabase `deconstruct` and `simulate` functions run
`response.match(/\x7b[\s\S]*\x7d/)` before parsing.  That regex, being
greedy, matches from the first opening brace of the text to the last
closing brace anywhere after it (or fails when no such pair exists).
`jsonObjectMatch` embeds exactly that. -/

def jsonObjectMatch (s : List Char) : Option (List Char) :=
  let t := s.dropWhile (fun c => c ≠ '{')
  let r := t.reverse.dropWhile (fun c => c ≠ '}')
  if r.isEmpty then none else some r.reverse

/-! Modelled from the spec: the specification instead describes the
extraction step as locating "the first balanced top-level object/array
substring within rawText".  `firstBalancedObject` renders those words
for the object case: starting at the first opening brace, it returns
the prefix ending at the brace-matching close (brace counting; brace
characters inside string literals are not special-cased, which is also
what "balanced substring" means textually). -/

/-- Index of the close brace that brings the nesting depth `d` (≥ 1 at
entry) back to zero, scanning char by char. -/
def closeIndex : Nat → List Char → Option Nat
  | _, [] => none
  | d, c :: rest =>
    if c = '}' then
      if d ≤ 1 then some 0 else (closeIndex (d - 1) rest).map (· + 1)
    else if c = '{' then (closeIndex (d + 1) rest).map (· + 1)
    else (closeIndex d rest).map (· + 1)

/-- Modelled from the spec: the first balanced top-level `\x7b...\x7d`
substring of the text, per the spec's description of the coercion. -/
def firstBalancedObject (s : List Char) : Option (List Char) :=
  match s.dropWhile (fun c => c ≠ '{') with
  | [] => none
  | c :: rest => (closeIndex 1 rest).map (fun k => (c :: rest).take (k + 2))

/-- `properNest d cs`: scanning `cs` from nesting depth `d` reaches depth
zero exactly at the end of `cs` and never earlier. -/
def properNest : Nat → List Char → Bool
  | d, [] => d == 0
  | d, c :: rest =>
    if d == 0 then false
    else if c = '{' then properNest (d + 1) rest
    else if c = '}' then properNest (d - 1) rest
    else properNest d rest

/-- A balanced top-level object: opens with a brace and its braces nest
back to zero exactly at its final character. -/
def isProperObject (cs : List Char) : Bool :=
  match cs with
  | '{' :: rest => properNest 1 rest
  | _ => false

/-! ## The fallback orchestrator

`callLLM` in `supabase/functions/deconstruct/index.ts` (likewise in
`narrative`, `simulate`) and `generateImage` in the `generate-image`
function share one loop: walk the ordered provider list, return the
first success, remember each failure as `lastError`, and after the loop
`throw lastError || new Error('All LLM providers failed')`.  A provider
is embedded as its name together with the outcome its `fn` would
produce for the request at hand (the environment — credentials,
network — is fixed by that outcome). -/

structure ProviderSpec (ε α : Type) where
  name : String
  outcome : Except ε α

/-- What the orchestrator throws when no provider succeeds: the recorded
`lastError` when one exists, else the fresh generic `Error`. -/
inductive ThrownError (ε : Type) where
  | recorded : ε → ThrownError ε
  | allFailedMsg : ThrownError ε
deriving Repr, DecidableEq

/-- The provider loop.  Returns the list of providers actually invoked,
in invocation order, together with the overall outcome. -/
def tryProvidersAux {ε α : Type} (ps : List (ProviderSpec ε α))
    (lastError : Option ε) :
    List (ProviderSpec ε α) × Except (ThrownError ε) α :=
  match ps with
  | [] =>
    ([], .error (match lastError with
      | some e => .recorded e
      | none => .allFailedMsg))
  | p :: rest =>
    match p.outcome with
    | .ok v => ([p], .ok v)
    | .error e =>
      let t := tryProvidersAux rest (some e)
      (p :: t.1, t.2)

/-- `callLLM` / `generateImage`: the loop entered with no error recorded. -/
def callLLM {ε α : Type} (ps : List (ProviderSpec ε α)) :
    List (ProviderSpec ε α) × Except (ThrownError ε) α :=
  tryProvidersAux ps none

/-! ## The TTL cache (`server/utils/cache.js`)

Each namespace is a `NodeCache` instance whose `stdTTL` is fixed at
construction (deconstruction 3600 s, simulation 1800 s, image 7200 s,
audio 600 s).  A `NodeCache` stores, per key, the value and the expiry
instant `now + stdTTL`; a read finds the entry and treats it as a miss
once the expiry instant lies strictly in the past.  The store is
embedded as an association list of `(key, value, expiresAt)`. -/

def CacheEntries (α : Type) := List (String × α × Nat)

def cacheSet {α : Type} (ttl : Nat) (c : CacheEntries α) (now : Nat)
    (k : String) (v : α) : CacheEntries α :=
  (k, v, now + ttl) :: c.filter (fun e => e.1 ≠ k)

def cacheGet {α : Type} (c : CacheEntries α) (now : Nat) (k : String) :
    Option α :=
  match c.find? (fun e => e.1 == k) with
  | some (_, v, t) => if t < now then none else some v
  | none => none

def jsTrim (s : String) : String :=
  String.mk
    (((s.toList.dropWhile Char.isWhitespace).reverse.dropWhile
      Char.isWhitespace).reverse)

def lowerStr (s : String) : String :=
  String.mk (s.toList.map Char.toLower)

/-- Key for the deconstruction namespace:
`deconstruct_` + `invention.toLowerCase().trim()`. -/
def deconstructKey (invention : String) : String :=
  "deconstruct_" ++ jsTrim (lowerStr invention)

def getCachedDeconstruction {α : Type} (c : CacheEntries α) (now : Nat)
    (invention : String) : Option α :=
  cacheGet c now (deconstructKey invention)

def setCachedDeconstruction {α : Type} (c : CacheEntries α) (now : Nat)
    (invention : String) (v : α) : CacheEntries α :=
  cacheSet 3600 c now (deconstructKey invention) v

/-- Key for the simulation namespace.  `creativity` appears in the key
through JavaScript template interpolation; the embedding takes its
rendered numeral directly. -/
def simulateKey (invention era creativity : String) : String :=
  "simulate_" ++ jsTrim (lowerStr invention) ++ "_" ++ jsTrim (lowerStr era)
    ++ "_" ++ creativity

def getCachedSimulation {α : Type} (c : CacheEntries α) (now : Nat)
    (invention era creativity : String) : Option α :=
  cacheGet c now (simulateKey invention era creativity)

def setCachedSimulation {α : Type} (c : CacheEntries α) (now : Nat)
    (invention era creativity : String) (v : α) : CacheEntries α :=
  cacheSet 1800 c now (simulateKey invention era creativity) v

/-! The image namespace derives its key from
`Buffer.from(prompt).toString('base64').slice(0, 50)`: the UTF-8 bytes
of the prompt, base64-encoded, truncated to 50 characters. -/

def utf8Bytes (c : Char) : List Nat :=
  let n := c.toNat
  if n < 128 then [n]
  else if n < 2048 then [192 + n / 64, 128 + n % 64]
  else if n < 65536 then
    [224 + n / 4096, 128 + (n / 64) % 64, 128 + n % 64]
  else
    [240 + n / 262144, 128 + (n / 4096) % 64, 128 + (n / 64) % 64,
     128 + n % 64]

def b64Alphabet : List Char :=
  ("ABCDEFGHIJKLMNOPQRSTUVWXYZabcdefghijklmnopqrstuvwxyz0123456789+/").toList

def b64Char (n : Nat) : Char := b64Alphabet.getD n 'A'

def base64Chunks : List Nat → List Char
  | [] => []
  | [b0] => [b64Char (b0 / 4), b64Char (b0 % 4 * 16), '=', '=']
  | [b0, b1] =>
    [b64Char (b0 / 4), b64Char (b0 % 4 * 16 + b1 / 16),
     b64Char (b1 % 16 * 4), '=']
  | b0 :: b1 :: b2 :: rest =>
    b64Char (b0 / 4) :: b64Char (b0 % 4 * 16 + b1 / 16) ::
    b64Char (b1 % 16 * 4 + b2 / 64) :: b64Char (b2 % 64) ::
    base64Chunks rest

def base64Of (s : String) : List Char :=
  base64Chunks (s.toList.flatMap utf8Bytes)

/-- `image_` + the first 50 characters of the prompt's base64. -/
def imageKey (prompt : String) : String :=
  "image_" ++ String.mk ((base64Of prompt).take 50)

def getCachedImage {α : Type} (c : CacheEntries α) (now : Nat)
    (prompt : String) : Option α :=
  cacheGet c now (imageKey prompt)

def setCachedImage {α : Type} (c : CacheEntries α) (now : Nat)
    (prompt : String) (v : α) : CacheEntries α :=
  cacheSet 7200 c now (imageKey prompt) v

def transcriptionKey (audioHash : String) : String :=
  "audio_" ++ audioHash

def getCachedTranscription {α : Type} (c : CacheEntries α) (now : Nat)
    (audioHash : String) : Option α :=
  cacheGet c now (transcriptionKey audioHash)

def setCachedTranscription {α : Type} (c : CacheEntries α) (now : Nat)
    (audioHash : String) (v : α) : CacheEntries α :=
  cacheSet 600 c now (transcriptionKey audioHash) v

/-! ## Moderation (`server/utils/prompts.js`, OpenAI client) -/

def MODERATION_KEYWORDS : List String :=
  ["weapon", "bomb", "explosive", "poison", "drug", "illegal", "harmful",
   "dangerous"]

def charsStartWith : List Char → List Char → Bool
  | [], _ => true
  | n :: ns, h :: hs => n == h && charsStartWith ns hs
  | _, [] => false

/-- `hay.includes(needle)` on character lists. -/
def charsContain (needle : List Char) : List Char → Bool
  | [] => needle.isEmpty
  | c :: rest => charsStartWith needle (c :: rest) || charsContain needle rest

def checkModerationKeywords (text : String) : Bool :=
  MODERATION_KEYWORDS.any
    (fun k => charsContain k.toList (lowerStr text).toList)

/-- `moderateContent` wraps the OpenAI moderation call in a try/catch
that swallows any failure and reports `\x7b flagged: false \x7d`: the
collaborator's outcome (`.ok flagged` on API success, `.error` on any
throw) is reduced to a flag and the function itself never throws. -/
def moderateContent (api : Except Unit Bool) : Bool :=
  match api with
  | .ok flagged => flagged
  | .error _ => false

/-! ## Request validation (`validateAndModerateInput` in
`server/routes/openai.js`)

The middleware rejects with 400 when the invention field is missing or
falsy, trims to emptiness, exceeds 100 characters, matches a moderation
keyword, or is flagged by a successful moderation call; otherwise it
attaches the trimmed invention and era (defaulting to `1800s` when era
is absent or falsy) and passes control on. -/

inductive ValidateOutcome where
  | reject : Nat → String → ValidateOutcome
  | accept : String → String → ValidateOutcome
deriving Repr, DecidableEq

def validateAndModerateInput (invention? era? : Option String)
    (modApi : Except Unit Bool) : ValidateOutcome :=
  match invention? with
  | none => .reject 400 "Invention name is required"
  | some invention =>
    if (jsTrim invention).length == 0 then
      .reject 400 "Invention name is required"
    else if 100 < invention.length then
      .reject 400 "Invention name too long (max 100 characters)"
    else if checkModerationKeywords invention then
      .reject 400 "Invalid invention topic"
    else if moderateContent modApi then
      .reject 400 "Content flagged by moderation system"
    else
      .accept (jsTrim invention)
        (match era? with
         | some era => if era.length == 0 then "1800s" else jsTrim era
         | none => "1800s")

/-! ## The per-IP rate limiter (`simpleRateLimit`)

Per IP, `rateLimits` holds the list of recorded request timestamps.  A
request at instant `now` filters that list to the timestamps inside the
sliding window, answers 429 when the window is already full — leaving
the stored list untouched and never calling `next()` — and otherwise
records `now` and stores the filtered list. -/

def inWindow (now windowMs t : Nat) : Bool := now - t < windowMs

/-- One middleware invocation: `(next-called?, stored timestamps after)`. -/
def simpleRateLimitStep (maxRequests windowMs : Nat) (stamps : List Nat)
    (now : Nat) : Bool × List Nat :=
  let valid := stamps.filter (inWindow now windowMs)
  if maxRequests ≤ valid.length then (false, stamps)
  else (true, valid ++ [now])

/-- The stored list reached from an empty map by a sequence of arrivals. -/
def runRateLimiter (maxRequests windowMs : Nat) : List Nat → List Nat
  | [] => []
  | now :: rest =>
    (simpleRateLimitStep maxRequests windowMs
      (runRateLimiter maxRequests windowMs rest) now).2

/-! ## The supabase `deconstruct` edge function

The handler validates the invention, runs `callLLM`, and coerces the
raw text: take the greedy brace match when present (else the whole
text), `JSON.parse` it, and on a parse error substitute the hard-coded
placeholder decomposition.  Provider errors caught by the outer
try/catch become a 500 response whose `details` carries the thrown
error's message. -/

open JVal in
/-- The hard-coded fallback decomposition built when parsing fails
(lines 190–198 of `supabase/functions/deconstruct/index.ts`). -/
def fallbackDecomposition (invention : String) : JVal :=
  jobj
    [("name", jstr invention),
     ("core_functions", jarr [jstr ("primary function"), jstr ("secondary function")]),
     ("materials", jarr [jstr ("basic materials"), jstr ("advanced materials")]),
     ("enabling_sciences", jarr [jstr ("physics"), jstr ("engineering")]),
     ("subsystems", jarr
       [jobj [("name", jstr ("main component")),
              ("dependency", jarr [jstr ("materials"), jstr ("science")])]]),
     ("cultural_drivers", jarr
       [jstr ("societal need"), jstr ("technological advancement")]),
     ("min_tech_level", jarr
       [jstr ("industrial technology"), jstr ("scientific knowledge")])]

/-- The text the coercion hands to `JSON.parse`: the greedy brace match
when one exists, the whole raw text otherwise. -/
def coercionTarget (response : String) : List Char :=
  match jsonObjectMatch response.toList with
  | some m => m
  | none => response.toList

/-- The coercion step of the supabase `deconstruct` function. -/
def coerceDecomposition (invention response : String) : JVal :=
  match parseJsonChars (coercionTarget response) with
  | some j => j
  | none => fallbackDecomposition invention

structure SbResponse where
  status : Nat
  body : JVal
deriving Repr

open JVal in
def errBody (msg : String) : JVal := jobj [("error", jstr msg)]

open JVal in
def errDetailsBody (msg details : String) : JVal :=
  jobj [("error", jstr msg), ("details", jstr details)]

/-- The message of the error the orchestrator threw, as the outer
try/catch of the edge function reads it. -/
def thrownMessage : ThrownError String → String
  | .recorded e => e
  | .allFailedMsg => "All LLM providers failed"

open JVal in
/-- The supabase `deconstruct` handler for a POST body carrying
`invention`, with the ambient provider environment fixed by `ps`. -/
def sbDeconstruct (invention : String)
    (ps : List (ProviderSpec String String)) : SbResponse :=
  if (jsTrim invention).length == 0 then
    ⟨400, errBody ("Invention name is required")⟩
  else if 100 < invention.length then
    ⟨400, errBody ("Invention name too long (max 100 characters)")⟩
  else
    match (callLLM ps).2 with
    | .ok response =>
      ⟨200, jobj [("decomposition", coerceDecomposition invention response)]⟩
    | .error e =>
      ⟨500, errDetailsBody ("Failed to deconstruct invention") (thrownMessage e)⟩

/-! ## The express `POST /deconstruct` route (`server/routes/openai.js`)

Middleware order is `validateAndModerateInput`, then the
`deconstructLimiter` (10 requests / 300000 ms), then the handler: cache
lookup — a hit answers `\x7b decomposition, cached: true \x7d` at once —
else prompt build, `callGPT`, strict `JSON.parse` (a parse error answers
500 `Failed to parse AI response`; a `callGPT` rejection is caught by
the outer try/catch as 500 `Failed to deconstruct invention`), cache
store, and `\x7b decomposition, cached: false \x7d`.  The embedding
records each pipeline stage the handler actually executes. -/

/-- JavaScript truthiness of a JSON value: `null`, `false`, a zero
number and the empty string are falsy; arrays and objects are always
truthy. -/
def jsTruthy : JVal → Bool
  | .jnull => false
  | .jbool b => b
  | .jnum m _ => !(m == 0)
  | .jstr s => !(s.isEmpty)
  | .jarr _ => true
  | .jobj _ => true

/-- The source's hit test is `if (cached)`, a truthiness guard on the
`NodeCache.get` result: an absent key is `undefined` (falsy), and a
present but falsy stored value (`null`, `false`, `0`, `""`) falls
through exactly like a miss and the pipeline regenerates. -/
def truthyHit (o : Option JVal) : Option JVal :=
  match o with
  | some v => if jsTruthy v then some v else none
  | none => none

inductive PipelineEvent where
  | cacheLookup : PipelineEvent
  | promptBuild : PipelineEvent
  | providerCall : PipelineEvent
  | cacheStore : PipelineEvent
deriving Repr, DecidableEq

structure RouteOutput where
  status : Nat
  body : JVal
  cacheAfter : CacheEntries JVal
  limiterAfter : List Nat
  trace : List PipelineEvent

open JVal in
def rateLimitBody : JVal :=
  jobj [("error", jstr ("Rate limit exceeded. Please try again later.")),
        ("retryAfter", jnum 300000 0)]

open JVal in
/-- The whole `POST /deconstruct` request path.  `stamps`/`nowMs` are the
caller IP's limiter state and the arrival instant; `cache`/`nowS` the
deconstruction cache entries and the clock it reads; `gpt` the outcome
`callGPT` would produce for this request. -/
def deconstructRoute (invention? era? : Option String)
    (modApi : Except Unit Bool) (stamps : List Nat) (nowMs : Nat)
    (cache : CacheEntries JVal) (nowS : Nat)
    (gpt : Except String String) : RouteOutput :=
  match validateAndModerateInput invention? era? modApi with
  | .reject st msg => ⟨st, errBody msg, cache, stamps, []⟩
  | .accept invention _era =>
    match simpleRateLimitStep 10 300000 stamps nowMs with
    | (false, st) => ⟨429, rateLimitBody, cache, st, []⟩
    | (true, st) =>
      match truthyHit (getCachedDeconstruction cache nowS invention) with
      | some v =>
        ⟨200, jobj [("decomposition", v), ("cached", jbool true)],
         cache, st, [.cacheLookup]⟩
      | none =>
        match gpt with
        | .error _ =>
          ⟨500, errBody ("Failed to deconstruct invention"), cache, st,
           [.cacheLookup, .promptBuild, .providerCall]⟩
        | .ok response =>
          match parseJsonStr response with
          | none =>
            ⟨500, errBody ("Failed to parse AI response"), cache, st,
             [.cacheLookup, .promptBuild, .providerCall]⟩
          | some dec =>
            ⟨200, jobj [("decomposition", dec), ("cached", jbool false)],
             setCachedDeconstruction cache nowS invention dec, st,
             [.cacheLookup, .promptBuild, .providerCall, .cacheStore]⟩

/-! ## Schema validity of a decomposition

The schema the supabase `deconstruct` system prompt declares: an object
with a string `name`, string arrays `core_functions`, `materials`,
`enabling_sciences`, `cultural_drivers`, `min_tech_level`, and a
`subsystems` array of objects each holding a string `name` and a string
array `dependency`. -/

def jLookup (fields : List (String × JVal)) (k : String) : Option JVal :=
  (fields.find? (fun f => f.1 == k)).map (fun f => f.2)

def isStrVal : JVal → Bool
  | .jstr _ => true
  | _ => false

def isStrArray : JVal → Bool
  | .jarr xs => xs.all isStrVal
  | _ => false

def isSubsystem : JVal → Bool
  | .jobj fs =>
    (match jLookup fs "name" with
     | some v => isStrVal v
     | none => false)
    && (match jLookup fs "dependency" with
        | some v => isStrArray v
        | none => false)
  | _ => false

def fieldIs (fields : List (String × JVal)) (k : String)
    (p : JVal → Bool) : Bool :=
  match jLookup fields k with
  | some v => p v
  | none => false

def decompositionSchemaValid : JVal → Bool
  | .jobj fs =>
    fieldIs fs "name" isStrVal
    && fieldIs fs "core_functions" isStrArray
    && fieldIs fs "materials" isStrArray
    && fieldIs fs "enabling_sciences" isStrArray
    && fieldIs fs "subsystems" (fun v => match v with
         | .jarr xs => xs.all isSubsystem
         | _ => false)
    && fieldIs fs "cultural_drivers" isStrArray
    && fieldIs fs "min_tech_level" isStrArray
  | _ => false

/-! ## Helper lemmas -/

theorem tryProvidersAux_prefix_fail {ε α : Type} :
    ∀ (pre : List (ProviderSpec ε α)) (pk : ProviderSpec ε α)
      (post : List (ProviderSpec ε α)) (v : α),
      (∀ q ∈ pre, ∃ e, q.outcome = .error e) → pk.outcome = .ok v →
      ∀ le : Option ε,
        tryProvidersAux (pre ++ pk :: post) le = (pre ++ [pk], .ok v)
  | [], pk, post, v, _, hk, le => by simp [tryProvidersAux, hk]
  | q :: pre, pk, post, v, hpre, hk, le => by
    obtain ⟨e, he⟩ := hpre q (by simp)
    have ih := tryProvidersAux_prefix_fail pre pk post v
      (fun r hr => hpre r (by simp [hr])) hk (some e)
    simp [tryProvidersAux, he, ih]

theorem tryProvidersAux_all_fail {ε α : Type} :
    ∀ (pre : List (ProviderSpec ε α)) (pl : ProviderSpec ε α) (e : ε),
      (∀ q ∈ pre, ∃ e', q.outcome = .error e') → pl.outcome = .error e →
      ∀ le : Option ε,
        (tryProvidersAux (pre ++ [pl]) le).2 = .error (.recorded e)
  | [], pl, e, _, hl, le => by simp [tryProvidersAux, hl]
  | q :: pre, pl, e, hpre, hl, le => by
    obtain ⟨e', he⟩ := hpre q (by simp)
    have ih := tryProvidersAux_all_fail pre pl e
      (fun r hr => hpre r (by simp [hr])) hl (some e')
    simp [tryProvidersAux, he, ih]

theorem cacheGet_cacheSet_fresh {α : Type} (ttl : Nat) (c : CacheEntries α)
    (now : Nat) (k : String) (v : α) :
    cacheGet (cacheSet ttl c now k v) now k = some v := by
  unfold cacheGet cacheSet
  rw [List.find?_cons_of_pos _ (by simp)]
  simp [Nat.not_lt.mpr (Nat.le_add_right now ttl)]

theorem cacheGet_cacheSet_stale {α : Type} (ttl : Nat) (c : CacheEntries α)
    (now now' : Nat) (k : String) (v : α) (h : now + ttl < now') :
    cacheGet (cacheSet ttl c now k v) now' k = none := by
  unfold cacheGet cacheSet
  rw [List.find?_cons_of_pos _ (by simp)]
  simp [h]

theorem runRateLimiter_length_le (maxRequests windowMs : Nat) :
    ∀ arrivals : List Nat,
      (runRateLimiter maxRequests windowMs arrivals).length ≤ maxRequests
  | [] => by simp [runRateLimiter]
  | now :: rest => by
    have ih := runRateLimiter_length_le maxRequests windowMs rest
    show (simpleRateLimitStep maxRequests windowMs
      (runRateLimiter maxRequests windowMs rest) now).2.length ≤ maxRequests
    unfold simpleRateLimitStep
    by_cases h : maxRequests ≤
        ((runRateLimiter maxRequests windowMs rest).filter
          (inWindow now windowMs)).length
    · simpa [h] using ih
    · simp only [h, if_false, List.length_append, List.length_cons,
        List.length_nil]
      omega

theorem dropWhile_append_all {α : Type} (p : α → Bool) :
    ∀ (l₁ l₂ : List α), (∀ a ∈ l₁, p a = true) →
      (l₁ ++ l₂).dropWhile p = l₂.dropWhile p
  | [], _, _ => rfl
  | a :: l₁, l₂, h => by
    rw [List.cons_append, List.dropWhile_cons_of_pos (h a (by simp))]
    exact dropWhile_append_all p l₁ l₂ (fun b hb => h b (by simp [hb]))

theorem properNest_nil (d : Nat) : properNest d [] = (d == 0) := rfl

theorem properNest_cons (d : Nat) (c : Char) (rest : List Char) :
    properNest d (c :: rest) =
      if d == 0 then false
      else if c = '{' then properNest (d + 1) rest
      else if c = '}' then properNest (d - 1) rest
      else properNest d rest := rfl

theorem properNest_pos_ne_nil (d : Nat) (hd : 0 < d) :
    properNest d [] = false := by
  rw [properNest_nil]
  simp
  omega

theorem properNest_zero_iff : ∀ cs : List Char,
    properNest 0 cs = true ↔ cs = []
  | [] => by simp [properNest_nil]
  | c :: cs => by simp [properNest_cons]

theorem properNest_last : ∀ (cs : List Char) (d : Nat), 0 < d →
    properNest d cs = true → cs.getLast? = some '}'
  | [], d, hd, h => by
    rw [properNest_pos_ne_nil d hd] at h
    exact absurd h (by simp)
  | [c], d, hd, h => by
    rw [properNest_cons] at h
    split_ifs at h with h0 h1 h2
    · rw [properNest_pos_ne_nil _ (Nat.succ_pos d)] at h
      exact absurd h (by simp)
    · simp [h2]
    · rw [properNest_nil] at h
      simp at h0 h
      omega
  | c :: c' :: r, d, hd, h => by
    rw [List.getLast?_cons_cons]
    rw [properNest_cons] at h
    split_ifs at h with h0 h1 h2
    · exact properNest_last (c' :: r) (d + 1) (Nat.succ_pos d) h
    · match d, hd with
      | 1, _ =>
        exact absurd ((properNest_zero_iff (c' :: r)).mp h) (by simp)
      | n + 2, _ =>
        exact properNest_last (c' :: r) (n + 1) (Nat.succ_pos n) h
    · exact properNest_last (c' :: r) d hd h

theorem closeIndex_cons (d : Nat) (c : Char) (rest : List Char) :
    closeIndex d (c :: rest) =
      if c = '}' then
        if d ≤ 1 then some 0 else (closeIndex (d - 1) rest).map (· + 1)
      else if c = '{' then (closeIndex (d + 1) rest).map (· + 1)
      else (closeIndex d rest).map (· + 1) := rfl

theorem properNest_pos_cons (d : Nat) (hd : 0 < d) :
    ∀ (cs : List Char), properNest d cs = true → cs ≠ [] := by
  intro cs h he
  rw [he, properNest_pos_ne_nil d hd] at h
  exact absurd h (by simp)

theorem closeIndex_append_of_properNest :
    ∀ (cs : List Char) (d : Nat), 0 < d → properNest d cs = true →
      ∀ tail, closeIndex d (cs ++ tail) = some (cs.length - 1)
  | [], d, hd, h, tail => by
    rw [properNest_pos_ne_nil d hd] at h
    exact absurd h (by simp)
  | c :: r, d, hd, h, tail => by
    rw [properNest_cons] at h
    rw [List.cons_append, closeIndex_cons]
    split_ifs at h with h0 h1 h2
    · -- c = '{'
      have hrne : r ≠ [] := properNest_pos_cons (d + 1) (Nat.succ_pos d) r h
      have hlen : 1 ≤ r.length := List.length_pos.mpr hrne
      rw [if_neg (by rw [h1]; decide), if_pos h1,
        closeIndex_append_of_properNest r (d + 1) (Nat.succ_pos d) h tail]
      simp only [Option.map_some', Option.some.injEq, List.length_cons]
      omega
    · -- c = '}'
      rw [if_pos h2]
      match d, hd with
      | 1, _ =>
        have hr : r = [] := (properNest_zero_iff r).mp h
        rw [if_pos (by omega)]
        simp [hr]
      | n + 2, _ =>
        have hrne : r ≠ [] := properNest_pos_cons (n + 1) (Nat.succ_pos n) r h
        have hlen : 1 ≤ r.length := List.length_pos.mpr hrne
        rw [if_neg (by omega)]
        rw [show n + 2 - 1 = n + 1 by omega]
        rw [closeIndex_append_of_properNest r (n + 1) (Nat.succ_pos n) h tail]
        simp only [Option.map_some', Option.some.injEq, List.length_cons]
        omega
    · -- other character
      have hrne : r ≠ [] := properNest_pos_cons d hd r h
      have hlen : 1 ≤ r.length := List.length_pos.mpr hrne
      rw [if_neg h2, if_neg h1,
        closeIndex_append_of_properNest r d hd h tail]
      simp only [Option.map_some', Option.some.injEq, List.length_cons]
      omega

theorem isProperObject_elim (cs : List Char) (h : isProperObject cs = true) :
    ∃ rest, cs = '{' :: rest ∧ properNest 1 rest = true := by
  unfold isProperObject at h
  split at h
  · next rest => exact ⟨rest, rfl, h⟩
  · exact absurd h (by simp)

theorem jsonObjectMatch_concat (mid tail : List Char) (htail : '}' ∉ tail) :
    jsonObjectMatch (('{' :: (mid ++ ['}'])) ++ tail) =
      some ('{' :: (mid ++ ['}'])) := by
  have hall : ∀ a ∈ tail.reverse, (decide (a ≠ '}')) = true := by
    intro a ha
    simp only [List.mem_reverse] at ha
    simp only [decide_eq_true_eq]
    exact fun e => htail (e ▸ ha)
  simp only [jsonObjectMatch, List.cons_append]
  rw [List.dropWhile_cons_of_neg (by simp)]
  rw [show ('{' :: (mid ++ ['}'] ++ tail)).reverse
      = tail.reverse ++ ('}' :: (mid.reverse ++ ['{'])) from by simp]
  rw [dropWhile_append_all _ _ _ hall,
    List.dropWhile_cons_of_neg (by simp)]
  simp [List.reverse_append]

theorem firstBalancedObject_concat (rest tail : List Char)
    (hnest : properNest 1 rest = true) :
    firstBalancedObject (('{' :: rest) ++ tail) = some ('{' :: rest) := by
  have hrne : rest ≠ [] := properNest_pos_cons 1 Nat.one_pos rest hnest
  have hlen : 1 ≤ rest.length := List.length_pos.mpr hrne
  unfold firstBalancedObject
  rw [List.cons_append, List.dropWhile_cons_of_neg (by simp)]
  show (closeIndex 1 (rest ++ tail)).map
      (fun k => ('{' :: (rest ++ tail)).take (k + 2)) = some ('{' :: rest)
  rw [closeIndex_append_of_properNest rest 1 Nat.one_pos hnest tail]
  simp only [Option.map_some', Option.some.injEq]
  rw [show rest.length - 1 + 2 = rest.length + 1 by omega]
  rw [List.take_succ_cons, List.take_left]

theorem validate_bad_subject (s : String) (era? : Option String)
    (modApi : Except Unit Bool) :
    ((jsTrim s).length = 0 →
      validateAndModerateInput (some s) era? modApi
        = .reject 400 ("Invention name is required"))
    ∧ ((jsTrim s).length ≠ 0 → 100 < s.length →
      validateAndModerateInput (some s) era? modApi
        = .reject 400 ("Invention name too long (max 100 characters)")) := by
  constructor
  · intro h0
    simp only [validateAndModerateInput]
    rw [if_pos (by simpa using h0)]
  · intro h0 hlen
    simp only [validateAndModerateInput]
    rw [if_neg (by simpa using h0), if_pos hlen]

theorem deconstructRoute_reject (invention? era? : Option String)
    (modApi : Except Unit Bool) (stamps : List Nat) (nowMs : Nat)
    (cache : CacheEntries JVal) (nowS : Nat) (gpt : Except String String)
    (st : Nat) (msg : String)
    (hv : validateAndModerateInput invention? era? modApi = .reject st msg) :
    deconstructRoute invention? era? modApi stamps nowMs cache nowS gpt
      = ⟨st, errBody msg, cache, stamps, []⟩ := by
  simp only [deconstructRoute, hv]

/-! ## The claims -/

/-- C1: For every ordered provider list and every request, the fallback
orchestrator invokes providers strictly in configured order: when
providers 1..k-1 each fail and provider k succeeds, `callLLM` returns
provider k's result, and its invocation trace is exactly providers
1..k-1 followed by provider k — each invoked exactly once, in order,
before k, with no provider after k ever invoked. -/
theorem c1_fallback_order {ε α : Type} (pre : List (ProviderSpec ε α))
    (pk : ProviderSpec ε α) (post : List (ProviderSpec ε α)) (v : α)
    (hpre : ∀ q ∈ pre, ∃ e, q.outcome = .error e)
    (hk : pk.outcome = .ok v) :
    callLLM (pre ++ pk :: post) = (pre ++ [pk], .ok v) :=
  tryProvidersAux_prefix_fail pre pk post v hpre hk none

/-- C1 witness: Groq and Together fail, HuggingFace succeeds; the trace
is Groq, Together, HuggingFace and the result is HuggingFace's. -/
theorem c1_fallback_order_witness :
    callLLM [⟨"Groq", .error ("Groq API error: 500")⟩,
             ⟨"Together", .error ("Together API error: 500")⟩,
             (⟨"HuggingFace", .ok ("raw model text")⟩ :
                ProviderSpec String String)]
      = ([⟨"Groq", .error ("Groq API error: 500")⟩,
          ⟨"Together", .error ("Together API error: 500")⟩,
          ⟨"HuggingFace", .ok ("raw model text")⟩], .ok ("raw model text")) := by
  have h := c1_fallback_order
    [⟨"Groq", .error ("Groq API error: 500")⟩,
     ⟨"Together", .error ("Together API error: 500")⟩]
    ⟨"HuggingFace", .ok ("raw model text")⟩ [] ("raw model text")
    (by
      intro q hq
      simp only [List.mem_cons, List.not_mem_nil, or_false] at hq
      rcases hq with h | h <;> exact ⟨_, by rw [h]⟩)
    rfl
  simpa using h

/-- C2: when every provider of a non-empty list fails, the orchestrator
throws the recorded error of the final provider tried (not the first),
and the supabase `deconstruct` handler surfaces exactly that error to
the caller in its 500 response `details`. -/
theorem c2_exhaustion_last_error (ps : List (ProviderSpec String String))
    (hfail : ∀ q ∈ ps, ∃ e', q.outcome = .error e')
    (pl : ProviderSpec String String) (hlast : ps.getLast? = some pl)
    (e : String) (hpl : pl.outcome = .error e)
    (invention : String) (h1 : (jsTrim invention).length ≠ 0)
    (h2 : invention.length ≤ 100) :
    (callLLM ps).2 = .error (.recorded e)
    ∧ sbDeconstruct invention ps
        = ⟨500, errDetailsBody ("Failed to deconstruct invention") e⟩ := by
  rcases ps.eq_nil_or_concat with he | ⟨qs, b, hqb⟩
  · rw [he] at hlast
    exact absurd hlast (by simp)
  · rw [List.concat_eq_append] at hqb
    subst hqb
    have hb : b = pl := by
      rw [List.getLast?_concat] at hlast
      exact Option.some.inj hlast
    have hmain : (callLLM (qs ++ [b])).2 = .error (.recorded e) :=
      tryProvidersAux_all_fail qs b e
        (fun q hq => hfail q (by simp [hq])) (hb.symm ▸ hpl) none
    refine ⟨hmain, ?_⟩
    unfold sbDeconstruct
    rw [if_neg (by simpa using h1), if_neg (by omega), hmain]
    rfl

/-- C2 witness: both providers fail; the surfaced error is the second
provider's, not the first's. -/
theorem c2_exhaustion_last_error_witness :
    ((callLLM [⟨"Groq", .error ("Groq API error: 401")⟩,
               (⟨"Together", .error ("Together API error: 429")⟩ :
                  ProviderSpec String String)]).2
        = .error (.recorded ("Together API error: 429")))
    ∧ sbDeconstruct ("Phone")
        [⟨"Groq", .error ("Groq API error: 401")⟩,
         ⟨"Together", .error ("Together API error: 429")⟩]
        = ⟨500, errDetailsBody ("Failed to deconstruct invention")
            ("Together API error: 429")⟩ :=
  c2_exhaustion_last_error
    [⟨"Groq", .error ("Groq API error: 401")⟩,
     ⟨"Together", .error ("Together API error: 429")⟩]
    (by
      intro q hq
      simp only [List.mem_cons, List.not_mem_nil, or_false] at hq
      rcases hq with h | h <;> exact ⟨_, by rw [h]⟩)
    ⟨"Together", .error ("Together API error: 429")⟩ rfl
    ("Together API error: 429") rfl ("Phone") (by decide) (by decide)

/-- C3 counterexample: in the express `POST /deconstruct` route, a raw
model output that is not JSON at all does not degrade to a fallback:
the request ends in a 500 `Failed to parse AI response`, refuting the
claim that, for every raw model output text, the operation still
completes with a success response. -/
theorem c3_express_parse_failure_counterexample :
    deconstructRoute (some ("Phone")) none (.ok false) [] 0 [] 0
        (.ok ("not json at all"))
      = ⟨500, errBody ("Failed to parse AI response"), [], [0],
         [.cacheLookup, .promptBuild, .providerCall]⟩ := by
  rfl

/-- C3 (amended): in the supabase `deconstruct` function the coercion
never propagates a parse failure: whenever the orchestrator succeeds
with any raw text, the function answers 200 with the coerced
decomposition; when parsing of the extraction target fails the result
is the synthetic placeholder fallback, which is schema-valid.  (The
express route instead answers 500 on a parse failure.) -/
theorem c3_supabase_coercion_never_fails (invention raw : String)
    (ps : List (ProviderSpec String String))
    (h1 : (jsTrim invention).length ≠ 0) (h2 : invention.length ≤ 100)
    (hok : (callLLM ps).2 = .ok raw) :
    sbDeconstruct invention ps
      = ⟨200, jobj [("decomposition", coerceDecomposition invention raw)]⟩
    ∧ (parseJsonChars (coercionTarget raw) = none →
        coerceDecomposition invention raw = fallbackDecomposition invention)
    ∧ decompositionSchemaValid (fallbackDecomposition invention) = true := by
  refine ⟨?_, ?_, by rfl⟩
  · unfold sbDeconstruct
    rw [if_neg (by simpa using h1), if_neg (by omega), hok]
  · intro hp
    unfold coerceDecomposition
    rw [hp]

/-- C3 witness: the supabase function turns the unparseable text into
the schema-valid placeholder and still answers 200. -/
theorem c3_supabase_coercion_never_fails_witness :
    (sbDeconstruct ("Phone") [⟨"Groq", .ok ("not json at all")⟩]
      = ⟨200, jobj [("decomposition",
          coerceDecomposition ("Phone") ("not json at all"))]⟩)
    ∧ (parseJsonChars (coercionTarget ("not json at all")) = none →
        coerceDecomposition ("Phone") ("not json at all")
          = fallbackDecomposition ("Phone"))
    ∧ decompositionSchemaValid (fallbackDecomposition ("Phone")) = true :=
  c3_supabase_coercion_never_fails ("Phone") ("not json at all")
    [⟨"Groq", .ok ("not json at all")⟩] (by decide) (by decide) rfl

/-- C4 counterexample: on the raw text `\x7b"a":1\x7d x\x7d` — a
balanced top-level object followed by trailing non-JSON material whose
tail holds another close brace — the code's greedy extraction returns
the substring from the first open brace to the last close brace (the
whole text), which differs from the first balanced object, refuting the
claim that the extracted substring is the first balanced object. -/
theorem c4_greedy_extraction_counterexample :
    jsonObjectMatch (("\x7b\x22a\x22:1\x7d x\x7d").toList)
        = some (("\x7b\x22a\x22:1\x7d x\x7d").toList)
    ∧ firstBalancedObject (("\x7b\x22a\x22:1\x7d x\x7d").toList)
        = some (("\x7b\x22a\x22:1\x7d").toList)
    ∧ isProperObject (("\x7b\x22a\x22:1\x7d").toList) = true
    ∧ parseJsonChars (("\x7b\x22a\x22:1\x7d x\x7d").toList) = none
    ∧ ("\x7b\x22a\x22:1\x7d x\x7d").toList ≠ ("\x7b\x22a\x22:1\x7d").toList :=
  ⟨by rfl, by rfl, by rfl, by rfl, by decide⟩

/-- C4 (amended): on a strict-parse failure the coercion extracts the
substring from the first opening brace to the last closing brace of the
raw text (objects only — arrays are never extracted); when the raw text
is a balanced top-level object followed by trailing material containing
no further close brace, that substring coincides with the first
balanced top-level object. -/
theorem c4_extraction_first_to_last_brace (obj tail : List Char)
    (hobj : isProperObject obj = true) (htail : '}' ∉ tail) :
    jsonObjectMatch (obj ++ tail) = some obj
    ∧ firstBalancedObject (obj ++ tail) = some obj := by
  obtain ⟨rest, hrep, hnest⟩ := isProperObject_elim obj hobj
  subst hrep
  constructor
  · rcases rest.eq_nil_or_concat with he | ⟨mid, b, hmb⟩
    · rw [he, properNest_pos_ne_nil 1 Nat.one_pos] at hnest
      exact absurd hnest (by simp)
    · rw [List.concat_eq_append] at hmb
      have hb : b = '}' := by
        have hl := properNest_last rest 1 Nat.one_pos hnest
        rw [hmb, List.getLast?_concat] at hl
        exact Option.some.inj hl
      rw [hmb, hb]
      exact jsonObjectMatch_concat mid tail htail
  · exact firstBalancedObject_concat rest tail hnest

/-- C4 witness: with trailing material free of close braces the greedy
match and the first balanced object agree. -/
theorem c4_extraction_first_to_last_brace_witness :
    jsonObjectMatch (("\x7b\x22a\x22:1\x7d").toList ++ (" x").toList)
        = some (("\x7b\x22a\x22:1\x7d").toList)
    ∧ firstBalancedObject (("\x7b\x22a\x22:1\x7d").toList ++ (" x").toList)
        = some (("\x7b\x22a\x22:1\x7d").toList) :=
  c4_extraction_first_to_last_brace _ _ (by decide) (by decide)

/-- C5: a request whose invention string is empty or whitespace-only,
or longer than 100 characters, receives a 400 response from the
validation middleware and the handler pipeline never runs: no cache
lookup, no provider invocation, cache and limiter state untouched. -/
theorem c5_validation_rejects_early (s : String) (era? : Option String)
    (modApi : Except Unit Bool) (stamps : List Nat) (nowMs : Nat)
    (cache : CacheEntries JVal) (nowS : Nat) (gpt : Except String String)
    (h : (jsTrim s).length = 0 ∨ 100 < s.length) :
    (deconstructRoute (some s) era? modApi stamps nowMs cache nowS gpt).status
        = 400
    ∧ (deconstructRoute (some s) era? modApi stamps nowMs cache nowS gpt).trace
        = []
    ∧ (deconstructRoute (some s) era? modApi stamps nowMs cache nowS
        gpt).cacheAfter = cache
    ∧ (deconstructRoute (some s) era? modApi stamps nowMs cache nowS
        gpt).limiterAfter = stamps := by
  by_cases h0 : (jsTrim s).length = 0
  · rw [deconstructRoute_reject (some s) era? modApi stamps nowMs cache nowS
      gpt 400 ("Invention name is required")
      ((validate_bad_subject s era? modApi).1 h0)]
    exact ⟨rfl, rfl, rfl, rfl⟩
  · rcases h with h | h
    · exact absurd h h0
    · rw [deconstructRoute_reject (some s) era? modApi stamps nowMs cache nowS
        gpt 400 ("Invention name too long (max 100 characters)")
        ((validate_bad_subject s era? modApi).2 h0 h)]
      exact ⟨rfl, rfl, rfl, rfl⟩

/-- C5 witness: a whitespace-only invention is rejected with 400 and
neither cache nor limiter state changes, with an empty pipeline trace. -/
theorem c5_validation_rejects_early_witness :
    ((deconstructRoute (some ("   ")) none (.ok false) [3] 5 [] 7
        (.error ("x"))).status = 400)
    ∧ (deconstructRoute (some ("   ")) none (.ok false) [3] 5 [] 7
        (.error ("x"))).trace = []
    ∧ (deconstructRoute (some ("   ")) none (.ok false) [3] 5 [] 7
        (.error ("x"))).cacheAfter = []
    ∧ (deconstructRoute (some ("   ")) none (.ok false) [3] 5 [] 7
        (.error ("x"))).limiterAfter = [3] :=
  c5_validation_rejects_early ("   ") none (.ok false) [3] 5 [] 7
    (.error ("x")) (Or.inl (by decide))

/-- C6: per-namespace cache round-trip and expiry: a get immediately
after a set returns the stored value unchanged, and a get after the
namespace's fixed TTL has elapsed (deconstruction 3600 s, simulation
1800 s, image 7200 s, transcription 600 s) misses. -/
theorem c6_cache_round_trip_ttl (c1 c2 c3 c4 : CacheEntries JVal)
    (now t1 t2 t3 t4 : Nat)
    (invention era creativity hash prompt : String) (v1 v2 v3 v4 : JVal)
    (h1 : now + 3600 < t1) (h2 : now + 1800 < t2) (h3 : now + 7200 < t3)
    (h4 : now + 600 < t4) :
    (getCachedDeconstruction (setCachedDeconstruction c1 now invention v1)
        now invention = some v1
      ∧ getCachedDeconstruction (setCachedDeconstruction c1 now invention v1)
        t1 invention = none)
    ∧ (getCachedSimulation
        (setCachedSimulation c2 now invention era creativity v2)
        now invention era creativity = some v2
      ∧ getCachedSimulation
        (setCachedSimulation c2 now invention era creativity v2)
        t2 invention era creativity = none)
    ∧ (getCachedImage (setCachedImage c3 now prompt v3) now prompt = some v3
      ∧ getCachedImage (setCachedImage c3 now prompt v3) t3 prompt = none)
    ∧ (getCachedTranscription (setCachedTranscription c4 now hash v4)
        now hash = some v4
      ∧ getCachedTranscription (setCachedTranscription c4 now hash v4)
        t4 hash = none) :=
  ⟨⟨cacheGet_cacheSet_fresh _ _ _ _ _, cacheGet_cacheSet_stale _ _ _ _ _ _ h1⟩,
   ⟨cacheGet_cacheSet_fresh _ _ _ _ _, cacheGet_cacheSet_stale _ _ _ _ _ _ h2⟩,
   ⟨cacheGet_cacheSet_fresh _ _ _ _ _, cacheGet_cacheSet_stale _ _ _ _ _ _ h3⟩,
   ⟨cacheGet_cacheSet_fresh _ _ _ _ _, cacheGet_cacheSet_stale _ _ _ _ _ _ h4⟩⟩

/-- C6 witness: concrete round trips in all four namespaces, with each
expiry read one second past the namespace's TTL. -/
theorem c6_cache_round_trip_ttl_witness :
    (getCachedDeconstruction
        (setCachedDeconstruction ([] : CacheEntries JVal) 0 ("Phone")
          (jstr ("d"))) 0 ("Phone") = some (jstr ("d"))
      ∧ getCachedDeconstruction
        (setCachedDeconstruction ([] : CacheEntries JVal) 0 ("Phone")
          (jstr ("d"))) 3601 ("Phone") = none)
    ∧ (getCachedSimulation
        (setCachedSimulation ([] : CacheEntries JVal) 0 ("Phone") ("1800s")
          ("0.7") (jstr ("s"))) 0 ("Phone") ("1800s") ("0.7")
          = some (jstr ("s"))
      ∧ getCachedSimulation
        (setCachedSimulation ([] : CacheEntries JVal) 0 ("Phone") ("1800s")
          ("0.7") (jstr ("s"))) 1801 ("Phone") ("1800s") ("0.7") = none)
    ∧ (getCachedImage
        (setCachedImage ([] : CacheEntries JVal) 0 ("p") (jstr ("i"))) 0
        ("p") = some (jstr ("i"))
      ∧ getCachedImage
        (setCachedImage ([] : CacheEntries JVal) 0 ("p") (jstr ("i"))) 7201
        ("p") = none)
    ∧ (getCachedTranscription
        (setCachedTranscription ([] : CacheEntries JVal) 0 ("abc")
          (jstr ("t"))) 0 ("abc") = some (jstr ("t"))
      ∧ getCachedTranscription
        (setCachedTranscription ([] : CacheEntries JVal) 0 ("abc")
          (jstr ("t"))) 601 ("abc") = none) :=
  c6_cache_round_trip_ttl [] [] [] [] 0 3601 1801 7201 601 ("Phone")
    ("1800s") ("0.7") ("abc") ("p") (jstr ("d")) (jstr ("s")) (jstr ("i"))
    (jstr ("t")) (by decide) (by decide) (by decide) (by decide)

/-- C7: for a validated request that passes the rate limiter, a cache
hit — a stored value that passes the source's `if (cached)` truthiness
guard — answers 200 with the cached value marked `cached: true` and
runs neither prompt builder nor provider; otherwise (key absent, or a
stored falsy value falling through the guard) the route runs the
pipeline, stores the parsed result, and answers `cached: false`. -/
theorem c7_cache_hit_miss_pipeline (invention? era? : Option String)
    (modApi : Except Unit Bool) (stamps : List Nat) (nowMs : Nat)
    (cache : CacheEntries JVal) (nowS : Nat) (gpt : Except String String)
    (inv era : String) (st : List Nat)
    (hval : validateAndModerateInput invention? era? modApi = .accept inv era)
    (hrl : simpleRateLimitStep 10 300000 stamps nowMs = (true, st)) :
    (∀ v, getCachedDeconstruction cache nowS inv = some v →
      jsTruthy v = true →
      deconstructRoute invention? era? modApi stamps nowMs cache nowS gpt
        = ⟨200, jobj [("decomposition", v), ("cached", jbool true)],
           cache, st, [.cacheLookup]⟩)
    ∧ (∀ resp dec, truthyHit (getCachedDeconstruction cache nowS inv) = none →
        gpt = .ok resp → parseJsonStr resp = some dec →
        deconstructRoute invention? era? modApi stamps nowMs cache nowS gpt
          = ⟨200, jobj [("decomposition", dec), ("cached", jbool false)],
             setCachedDeconstruction cache nowS inv dec, st,
             [.cacheLookup, .promptBuild, .providerCall, .cacheStore]⟩) := by
  constructor
  · intro v hv htr
    have ht : truthyHit (getCachedDeconstruction cache nowS inv) = some v := by
      rw [hv]
      simp [truthyHit, htr]
    simp only [deconstructRoute, hval, hrl, ht]
  · intro resp dec hmiss hgpt hparse
    simp only [deconstructRoute, hval, hrl, hmiss, hgpt, hparse]

/-- C7 witness: a concrete hit returns the cached decomposition with
`cached: true` and touches only the cache; a concrete miss calls the
provider, parses, stores and answers `cached: false`. -/
theorem c7_cache_hit_miss_pipeline_witness :
    (deconstructRoute (some ("Phone")) none (.ok false) [] 0
        [("deconstruct_phone", jstr ("cached value"), 99)] 0 (.ok ("null"))
      = ⟨200, jobj [("decomposition", jstr ("cached value")),
          ("cached", jbool true)],
         [("deconstruct_phone", jstr ("cached value"), 99)], [0],
         [.cacheLookup]⟩)
    ∧ (deconstructRoute (some ("Phone")) none (.ok false) [] 0 [] 0
        (.ok ("\x7b\x22a\x22:1\x7d"))
      = ⟨200, jobj [("decomposition", jobj [("a", jnum 1 0)]),
          ("cached", jbool false)],
         setCachedDeconstruction [] 0 ("Phone") (jobj [("a", jnum 1 0)]),
         [0], [.cacheLookup, .promptBuild, .providerCall, .cacheStore]⟩) := by
  constructor
  · exact (c7_cache_hit_miss_pipeline (some ("Phone")) none (.ok false) [] 0
      [("deconstruct_phone", jstr ("cached value"), 99)] 0 (.ok ("null"))
      ("Phone") ("1800s") [0] (by decide) (by rfl)).1
      (jstr ("cached value")) (by rfl) (by rfl)
  · exact (c7_cache_hit_miss_pipeline (some ("Phone")) none (.ok false) [] 0
      [] 0 (.ok ("\x7b\x22a\x22:1\x7d")) ("Phone") ("1800s") [0] (by decide)
      (by rfl)).2 ("\x7b\x22a\x22:1\x7d") (jobj [("a", jnum 1 0)]) (by rfl)
      rfl (by rfl)

/-- C8: the image cache key is the base64 of the prompt truncated to 50
characters, so the two distinct 39-character prompts below share one
key, and the value cached for the first is returned for the second. -/
theorem c8_image_key_collision :
    (String.mk (List.replicate 38 'a' ++ ['X'])
        ≠ String.mk (List.replicate 38 'a' ++ ['Y']))
    ∧ imageKey (String.mk (List.replicate 38 'a' ++ ['X']))
        = imageKey (String.mk (List.replicate 38 'a' ++ ['Y']))
    ∧ getCachedImage
        (setCachedImage ([] : CacheEntries JVal) 0
          (String.mk (List.replicate 38 'a' ++ ['X'])) (jstr ("img"))) 0
        (String.mk (List.replicate 38 'a' ++ ['Y'])) = some (jstr ("img")) :=
  ⟨by decide, by rfl, by rfl⟩

/-- C9: moderation is fail-open: for a validated request, a failure of
the external moderation collaborator does not reject the request — the
middleware accepts and the pipeline proceeds; a moderation 400 arises
only from a keyword match or from the collaborator successfully
reporting `flagged: true`. -/
theorem c9_moderation_fail_open (inv : String) (era? : Option String)
    (modApi : Except Unit Bool)
    (h1 : (jsTrim inv).length ≠ 0) (h2 : inv.length ≤ 100) :
    (modApi = .error () → checkModerationKeywords inv = false →
      validateAndModerateInput (some inv) era? modApi
        = .accept (jsTrim inv)
            (match era? with
             | some era => if era.length == 0 then "1800s" else jsTrim era
             | none => "1800s"))
    ∧ (validateAndModerateInput (some inv) era? modApi
          = .reject 400 ("Invalid invention topic") →
        checkModerationKeywords inv = true)
    ∧ (validateAndModerateInput (some inv) era? modApi
          = .reject 400 ("Content flagged by moderation system") →
        modApi = .ok true) := by
  refine ⟨?_, ?_, ?_⟩
  · intro hm hkw
    simp only [validateAndModerateInput]
    rw [if_neg (by simpa using h1), if_neg (by omega),
      if_neg (by simp [hkw]), if_neg (by simp [hm, moderateContent])]
  · intro hr
    simp only [validateAndModerateInput] at hr
    rw [if_neg (by simpa using h1), if_neg (by omega)] at hr
    by_cases hkw : checkModerationKeywords inv = true
    · exact hkw
    · rw [if_neg hkw] at hr
      by_cases hmod : moderateContent modApi = true
      · rw [if_pos hmod] at hr
        injection hr with h h'
        exact absurd h' (by decide)
      · rw [if_neg hmod] at hr
        exact absurd hr (by simp)
  · intro hr
    simp only [validateAndModerateInput] at hr
    rw [if_neg (by simpa using h1), if_neg (by omega)] at hr
    by_cases hkw : checkModerationKeywords inv = true
    · rw [if_pos hkw] at hr
      injection hr with h h'
      exact absurd h' (by decide)
    · rw [if_neg hkw] at hr
      by_cases hmod : moderateContent modApi = true
      · match modApi, hmod with
        | .ok true, _ => rfl
        | .ok false, hmod => exact absurd hmod (by simp [moderateContent])
        | .error _, hmod => exact absurd hmod (by simp [moderateContent])
      · rw [if_neg hmod] at hr
        exact absurd hr (by simp)

/-- C9 witness: with the moderation collaborator failing outright, a
clean invention is accepted, not rejected. -/
theorem c9_moderation_fail_open_witness :
    validateAndModerateInput (some ("Phone")) none (.error ())
      = .accept ("Phone") ("1800s") := by
  have h := (c9_moderation_fail_open ("Phone") none (.error ())
    (by decide) (by decide)).1 rfl (by rfl)
  exact h

/-- C10: the stored sliding-window timestamp list never holds more than
`maxRequests` entries (so neither does its in-window part); a request
arriving when the window is already full is not recorded — the limiter
state is unchanged, `next()` is not called — and the deconstruct route
answers 429 with cache and limiter untouched and an empty pipeline
trace. -/
theorem c10_rate_limit_invariant (maxRequests windowMs now : Nat)
    (stamps arrivals : List Nat)
    (hfull : maxRequests ≤ (stamps.filter (inWindow now windowMs)).length)
    (invention? era? : Option String) (modApi : Except Unit Bool)
    (cache : CacheEntries JVal) (nowS : Nat) (gpt : Except String String)
    (inv era : String) (stampsA : List Nat) (nowMs : Nat)
    (hval : validateAndModerateInput invention? era? modApi = .accept inv era)
    (hfullA : 10 ≤ (stampsA.filter (inWindow nowMs 300000)).length) :
    ((runRateLimiter maxRequests windowMs arrivals).filter
        (inWindow now windowMs)).length ≤ maxRequests
    ∧ simpleRateLimitStep maxRequests windowMs stamps now = (false, stamps)
    ∧ deconstructRoute invention? era? modApi stampsA nowMs cache nowS gpt
        = ⟨429, rateLimitBody, cache, stampsA, []⟩ := by
  refine ⟨?_, ?_, ?_⟩
  · exact le_trans (List.length_filter_le _ _)
      (runRateLimiter_length_le _ _ _)
  · unfold simpleRateLimitStep
    rw [if_pos hfull]
  · have hstep : simpleRateLimitStep 10 300000 stampsA nowMs
        = (false, stampsA) := by
      unfold simpleRateLimitStep
      rw [if_pos hfullA]
    simp only [deconstructRoute, hval, hstep]

/-- C10 witness: a window of one slot already holding an in-window
timestamp rejects the next request unchanged, and with ten in-window
timestamps the deconstruct route answers 429 without touching any
state. -/
theorem c10_rate_limit_invariant_witness :
    ((runRateLimiter 1 10 [1, 2, 3]).filter (inWindow 6 10)).length ≤ 1
    ∧ simpleRateLimitStep 1 10 [5] 6 = (false, [5])
    ∧ deconstructRoute (some ("Phone")) none (.ok false)
        (List.replicate 10 0) 0 [] 0 (.error ("x"))
        = ⟨429, rateLimitBody, [], List.replicate 10 0, []⟩ :=
  c10_rate_limit_invariant 1 10 6 [5] [1, 2, 3] (by decide) (some ("Phone"))
    none (.ok false) [] 0 (.error ("x")) ("Phone") ("1800s")
    (List.replicate 10 0) 0 (by decide) (by decide)

end RetroVision
